import Mathlib

/-!
Verification of the endian conversion utility in `wasm-sysroot/endian.h`.

The header defines two static inline functions on `uint16_t`:

* `le16toh(x)` returns `x` unchanged (the host is little-endian).
* `be16toh(x)` swaps the two bytes.  On GCC/Clang it calls
  `__builtin_bswap16(x)`; otherwise it computes `(x << 8) | (x >> 8)`,
  where `x` is first promoted to `int` (so the shift does not overflow),
  and the result is truncated back to `uint16_t` on return.

We model `uint16_t` values as natural numbers `x < 65536`; the C
truncation back to 16 bits is an explicit `% 65536`.
-/

/-- `le16toh` from the source: the identity on a 16-bit value. -/
def le16toh (x : Nat) : Nat := x

/-- `be16toh` on the GCC/Clang branch, i.e. `__builtin_bswap16(x)` for a
16-bit argument: the low byte moved to the high position, or-ed with the
high byte moved down.  For inputs `x < 65536` this is exactly the
intrinsic's result. -/
def be16toh (x : Nat) : Nat := ((x &&& 0xFF) <<< 8) ||| (x >>> 8)

/-- The portable branch of `be16toh`: in C, `x` is promoted to a wider
`int`, `(x << 8) | (x >> 8)` is computed there without overflow, and the
return converts back to `uint16_t`, i.e. reduces modulo `2^16`. -/
def be16toh_portable (x : Nat) : Nat := ((x <<< 8) ||| (x >>> 8)) % 65536

/-- Masking with `0xFF` is reduction modulo 256. -/
lemma and_255_eq_mod (x : Nat) : x &&& 0xFF = x % 256 := by
  have h := Nat.and_pow_two_sub_one_eq_mod x 8
  norm_num at h
  exact h

/-- Joining a shifted high byte with a value below 256 by bitwise or is
plain positional arithmetic. -/
lemma byte_or (hi lo : Nat) (hlo : lo < 256) :
    (hi <<< 8) ||| lo = 256 * hi + lo := by
  rw [Nat.shiftLeft_eq, Nat.mul_comm]
  have hlo2 : lo < 2 ^ 8 := by omega
  rw [← Nat.mul_add_lt_is_or hlo2]

/-- Arithmetic characterisation of `be16toh` on 16-bit inputs: the result
is the low byte in the high position plus the high byte in the low
position. -/
lemma be16toh_eq (x : Nat) (hx : x < 65536) :
    be16toh x = 256 * (x % 256) + x / 256 := by
  unfold be16toh
  rw [and_255_eq_mod, Nat.shiftLeft_eq, Nat.shiftRight_eq_div_pow]
  have h2 : x / 2 ^ 8 < 2 ^ 8 := by omega
  rw [Nat.mul_comm, ← Nat.mul_add_lt_is_or h2]
  norm_num

/-- Arithmetic characterisation of the portable branch: after the modular
truncation it is the same byte swap. -/
lemma be16toh_portable_eq (x : Nat) (hx : x < 65536) :
    be16toh_portable x = 256 * (x % 256) + x / 256 := by
  unfold be16toh_portable
  rw [Nat.shiftLeft_eq, Nat.shiftRight_eq_div_pow]
  have h2 : x / 2 ^ 8 < 2 ^ 8 := by omega
  rw [Nat.mul_comm, ← Nat.mul_add_lt_is_or h2]
  have h256 : (2 : Nat) ^ 8 = 256 := by norm_num
  rw [h256]
  omega

/-- C1: for every 16-bit `x = (hi <<< 8) ||| lo` with `hi, lo < 256`,
`be16toh` returns `(lo <<< 8) ||| hi`: the two bytes exchange position. -/
theorem be16toh_swaps_bytes (hi lo : Nat) (hhi : hi < 256) (hlo : lo < 256) :
    be16toh ((hi <<< 8) ||| lo) = (lo <<< 8) ||| hi := by
  rw [byte_or hi lo hlo, byte_or lo hi hhi]
  rw [be16toh_eq _ (by omega)]
  omega

/-- Witness for C1 at `hi = 0x12`, `lo = 0x34`. -/
theorem be16toh_swaps_bytes_witness :
    (0x12 : Nat) < 256 ∧ (0x34 : Nat) < 256 ∧
      be16toh ((0x12 <<< 8) ||| 0x34) = (0x34 <<< 8) ||| 0x12 :=
  ⟨by decide, by decide, be16toh_swaps_bytes 0x12 0x34 (by decide) (by decide)⟩

/-- C2: `le16toh` returns its input unchanged for every value. -/
theorem le16toh_identity (x : Nat) : le16toh x = x := rfl

/-- C3: `be16toh` is an involution on 16-bit values. -/
theorem be16toh_involution (x : Nat) (hx : x < 65536) :
    be16toh (be16toh x) = x := by
  rw [be16toh_eq x hx]
  rw [be16toh_eq _ (by omega)]
  omega

/-- Witness for C3 at `x = 0x1234`. -/
theorem be16toh_involution_witness :
    (0x1234 : Nat) < 65536 ∧ be16toh (be16toh 0x1234) = 0x1234 :=
  ⟨by decide, be16toh_involution 0x1234 (by decide)⟩

/-- C4: the fixed points of `be16toh` are exactly the values whose two
bytes are equal: for `x = (hi <<< 8) ||| lo`, `be16toh x ≠ x` when
`hi ≠ lo` and `be16toh x = x` when `hi = lo`. -/
theorem be16toh_fixed_points (hi lo : Nat) (hhi : hi < 256) (hlo : lo < 256) :
    (hi ≠ lo → be16toh ((hi <<< 8) ||| lo) ≠ (hi <<< 8) ||| lo) ∧
      (hi = lo → be16toh ((hi <<< 8) ||| lo) = (hi <<< 8) ||| lo) := by
  rw [byte_or hi lo hlo, be16toh_eq _ (by omega)]
  constructor <;> intro h <;> omega

/-- Witness for C4 at `hi = 1`, `lo = 2`. -/
theorem be16toh_fixed_points_witness :
    (1 : Nat) < 256 ∧ (2 : Nat) < 256 ∧
      ((1 ≠ 2 → be16toh (((1 : Nat) <<< 8) ||| 2) ≠ ((1 : Nat) <<< 8) ||| 2) ∧
        (1 = 2 → be16toh (((1 : Nat) <<< 8) ||| 2) = ((1 : Nat) <<< 8) ||| 2)) :=
  ⟨by decide, by decide, be16toh_fixed_points 1 2 (by decide) (by decide)⟩

/-- C5: `be16toh` maps the boundary inputs as listed in the spec. -/
theorem be16toh_boundary :
    be16toh 0x0000 = 0x0000 ∧ be16toh 0xFFFF = 0xFFFF ∧
      be16toh 0x1234 = 0x3412 ∧ be16toh 0x00FF = 0xFF00 ∧
      be16toh 0xFF00 = 0x00FF := by
  decide

/-- C6: the intrinsic branch and the portable branch of `be16toh` agree
on every 16-bit input. -/
theorem be16toh_branches_agree (x : Nat) (hx : x < 65536) :
    be16toh x = be16toh_portable x := by
  rw [be16toh_eq x hx, be16toh_portable_eq x hx]

/-- Witness for C6 at `x = 0xBEEF`. -/
theorem be16toh_branches_agree_witness :
    (0xBEEF : Nat) < 65536 ∧ be16toh 0xBEEF = be16toh_portable 0xBEEF :=
  ⟨by decide, be16toh_branches_agree 0xBEEF (by decide)⟩

/-- Counterexample to C7: at `x = (0x12 <<< 8) ||| 0x34` the two bytes
differ, yet `le16toh (be16toh x)` still equals `be16toh (le16toh x)`,
because `le16toh` is the identity; the claimed inequality off the
diagonal is false. -/
theorem cross_check_counterexample :
    (0x12 : Nat) ≠ 0x34 ∧
      le16toh (be16toh ((0x12 <<< 8) ||| 0x34)) =
        be16toh (le16toh ((0x12 <<< 8) ||| 0x34)) := by
  decide

/-- C7 amended: since `le16toh` is the identity, both compositions reduce
to `be16toh x`, so the equality holds for every input, not only where the
two bytes coincide. -/
theorem cross_check_amended (x : Nat) :
    le16toh (be16toh x) = be16toh (le16toh x) := rfl

/-- C8: both functions are total on the 16-bit domain and return a 16-bit
result; being plain functions into `Nat` they have no failure outcome. -/
theorem endian_total (x : Nat) (hx : x < 65536) :
    le16toh x < 65536 ∧ be16toh x < 65536 := by
  refine ⟨hx, ?_⟩
  rw [be16toh_eq x hx]
  omega

/-- Witness for C8 at `x = 0xFFFF`. -/
theorem endian_total_witness :
    (0xFFFF : Nat) < 65536 ∧ (le16toh 0xFFFF < 65536 ∧ be16toh 0xFFFF < 65536) :=
  ⟨by decide, endian_total 0xFFFF (by decide)⟩

/-- C9: both functions are deterministic: equal inputs give equal
outputs, and as pure functions they touch no state. -/
theorem endian_deterministic (x y : Nat) (h : x = y) :
    le16toh x = le16toh y ∧ be16toh x = be16toh y := by
  rw [h]
  exact ⟨rfl, rfl⟩

/-- Witness for C9 at `x = y = 7`. -/
theorem endian_deterministic_witness :
    (7 : Nat) = 7 ∧ (le16toh 7 = le16toh 7 ∧ be16toh 7 = be16toh 7) :=
  ⟨rfl, endian_deterministic 7 7 rfl⟩

/-- C10: the portable expression, evaluated in the wider promoted type
and truncated modulo `2^16` on return, equals the exact byte swap
`256 * (x % 256) + x / 256` for every 16-bit `x`: the bits pushed above
position 15 by the left shift are exactly the multiples of `2^16`
removed by the truncation. -/
theorem be16toh_portable_exact (x : Nat) (hx : x < 65536) :
    be16toh_portable x = 256 * (x % 256) + x / 256 :=
  be16toh_portable_eq x hx

/-- Witness for C10 at `x = 0x0102`. -/
theorem be16toh_portable_exact_witness :
    (0x0102 : Nat) < 65536 ∧
      be16toh_portable 0x0102 = 256 * (0x0102 % 256) + 0x0102 / 256 :=
  ⟨by decide, be16toh_portable_exact 0x0102 (by decide)⟩
